import Mathlib

/-!
# MPU6050 I2C driver (`src/mpu6050.c`)

A shallow embedding of the driver.  The driver keeps one process-wide handle
slot (`s_dev`) and talks to the outside world through the Mongoose-OS I2C
helpers and `calloc`.  Those are external to the repository, so they enter the
embedding as a `Platform` over an arbitrary world state `σ`; every driver
function threads that state explicitly.

Conventions
* C `double` / `float` arithmetic is carried out in `ℚ`.
* `uint16_t`, `int16_t`, `uint8_t` are `Nat` / `Int` with explicit wrap-around.
* A C pointer argument is an `Option`: `none` is `NULL`, `some v` points to an
  object currently holding `v`; the function returns the object afterwards.
-/

namespace MPU6050

/-! ## Register map (`#define`s of `mpu6050.c`) -/

def REG_GYRO_CONFIG : Nat := 0x1B
def REG_ACCEL_CONFIG : Nat := 0x1C
def REG_ACCEL_OUT : Nat := 0x3B
def REG_ACCEL_OUT_REG_COUNT : Nat := 6
def REG_TEMP_OUT : Nat := 0x41
def REG_TEMP_OUT_REG_COUNT : Nat := 2
def REG_GYRO_OUT : Nat := 0x43
def REG_GYRO_OUT_REG_COUNT : Nat := 6
def REG_PWR_MGMT_1 : Nat := 0x6B
def REG_PWR_MGMT_2 : Nat := 0x6C
def REG_WHO_AM_I : Nat := 0x75

/-! ## Machine integers -/

/-- Conversion of a C `int` to `int16_t` (two's-complement wrap-around). -/
def toInt16 (n : Int) : Int := (n + 32768) % 65536 - 32768

/-- Conversion of a C `int` to `uint16_t` (reduction modulo `2^16`). -/
def toUInt16 (n : Int) : Nat := (n % 65536).toNat

/-- Byte order of the host: how the `union { uint8_t b[]; int16_t w[]; }`
lays its 16-bit words over the byte buffer. -/
inductive Endian where
  | little
  | big
deriving DecidableEq, Repr

/-- The function `be2le` of `mpu6050.c`: the operand is promoted to `int`,
shifted and masked, and the result is returned as `uint16_t`. -/
def be2le (be : Nat) : Nat :=
  (((be <<< 8) &&& 0xFF00) ||| ((be >>> 8) &&& 0x00FF)) % 65536

/-- Member `w[i]` of the union `data` once the byte member `b` holds `b`:
the native `int16_t` made of bytes `2*i` and `2*i+1`.  Bytes the transport
did not deliver read as `0`. -/
def word16 (h : Endian) (b : List Nat) (i : Nat) : Int :=
  let b0 := b.getD (2 * i) 0 % 256
  let b1 := b.getD (2 * i + 1) 0 % 256
  match h with
  | Endian.little => toInt16 ((b0 + 256 * b1 : Nat) : Int)
  | Endian.big => toInt16 ((256 * b0 + b1 : Nat) : Int)

/-- The expression `be2le(data.w[i])` stored into an `int16_t` field: the
`int16_t` word is converted to the `uint16_t` parameter, swapped, and the
`uint16_t` result converted back to `int16_t`. -/
def swapped16 (h : Endian) (b : List Nat) (i : Nat) : Int :=
  toInt16 ((be2le (toUInt16 (word16 h b i)) : Nat) : Int)

/-! ## Data model -/

/-- The driver handle `struct mpu6050`; `i2c` is the bus pointer. -/
structure mpu6050 where
  i2c : Nat
  addr : Nat
  g_scale : ℚ
  a_scale : ℚ
deriving DecidableEq, Repr

/-- Modelled from the spec: `struct accel` is declared in `mpu6050.h`, which is
not among the sources; three signed 16-bit raw components and the scale. -/
structure accel where
  x : Int
  y : Int
  z : Int
  scale : ℚ
deriving DecidableEq, Repr

/-- Modelled from the spec: `struct gyro` is declared in `mpu6050.h`, which is
not among the sources; three signed 16-bit raw components and the scale. -/
structure gyro where
  x : Int
  y : Int
  z : Int
  scale : ℚ
deriving DecidableEq, Repr

/-- The external functions the driver calls, over a world state `σ`.
`mgos_i2c_read_reg_b` and `mgos_i2c_read_reg_w` return a C `int`, `-1` on
failure.  `mgos_i2c_getbits_reg_b` and `mgos_i2c_read_reg_n` return `bool` and
fill an output buffer: `none` is `false`, `some v` is `true` with `v`
delivered.  `calloc` returns whether the allocation succeeded. -/
structure Platform (σ : Type) where
  endian : Endian
  mgos_i2c_get_global : σ → Option Nat
  mgos_i2c_read_reg_b : Nat → Nat → Nat → σ → Int × σ
  mgos_i2c_write_reg_b : Nat → Nat → Nat → Nat → σ → Bool × σ
  mgos_i2c_getbits_reg_b : Nat → Nat → Nat → Nat → Nat → σ → Option Nat × σ
  mgos_i2c_read_reg_n : Nat → Nat → Nat → Nat → σ → Option (List Nat) × σ
  mgos_i2c_read_reg_w : Nat → Nat → Nat → σ → Int × σ
  calloc : σ → Bool × σ

/-- Program state: the outside world and the global `s_dev`
(`none` is `NULL`). -/
structure Driver (σ : Type) where
  env : σ
  s_dev : Option mpu6050

/-! ## The driver functions -/

/-- The function `mpu6050_init`.  The handle comes from `calloc`, so a scale
field that no `case` of its `switch` assigns is `0` before the division. -/
def mpu6050_init {σ : Type} (P : Platform σ) (addr : Nat) (st : Driver σ) :
    Bool × Driver σ :=
  match P.mgos_i2c_get_global st.env with
  | none => (false, st)
  | some i2c =>
    let r1 := P.mgos_i2c_read_reg_b i2c addr REG_WHO_AM_I st.env
    let me := r1.1
    if (addr : Int) ≠ me then (false, ⟨r1.2, st.s_dev⟩)
    else
      let r2 := P.mgos_i2c_write_reg_b i2c addr REG_PWR_MGMT_1 0x01 r1.2
      let init_ok := r2.1
      if !init_ok then (false, ⟨r2.2, st.s_dev⟩)
      else
        match P.mgos_i2c_getbits_reg_b i2c addr REG_GYRO_CONFIG 3 2 r2.2 with
        | (none, e3) => (false, ⟨e3, st.s_dev⟩)
        | (some gv, e3) =>
          let gfs_sel := gv % 256
          match P.mgos_i2c_getbits_reg_b i2c addr REG_ACCEL_CONFIG 3 2 e3 with
          | (none, e4) => (false, ⟨e4, st.s_dev⟩)
          | (some av, e4) =>
            let afs_sel := av % 256
            match P.calloc e4 with
            | (false, e5) => (false, ⟨e5, none⟩)
            | (true, e5) =>
              let g_scale : ℚ :=
                match gfs_sel with
                | 0 => 250
                | 1 => 500
                | 2 => 1000
                | 3 => 2000
                | _ => 0
              let a_scale : ℚ :=
                match afs_sel with
                | 0 => 2
                | 1 => 4
                | 2 => 8
                | 3 => 16
                | _ => 0
              (true, ⟨e5, some ⟨i2c, addr, g_scale / 32768, a_scale / 32768⟩⟩)

/-- The function `mpu6050_read_accel`; `p` is the caller's `struct accel *`. -/
def mpu6050_read_accel {σ : Type} (P : Platform σ) (p : Option accel)
    (st : Driver σ) : Bool × Option accel × Driver σ :=
  match st.s_dev, p with
  | none, _ => (false, p, st)
  | some _, none => (false, p, st)
  | some dev, some _ =>
    match P.mgos_i2c_read_reg_n dev.i2c dev.addr REG_ACCEL_OUT
        REG_ACCEL_OUT_REG_COUNT st.env with
    | (none, e) => (false, p, ⟨e, st.s_dev⟩)
    | (some data, e) =>
      (true,
        some ⟨swapped16 P.endian data 0, swapped16 P.endian data 1,
          swapped16 P.endian data 2, dev.a_scale⟩,
        ⟨e, st.s_dev⟩)

/-- The function `mpu6050_read_gyro`; `p` is the caller's `struct gyro *`. -/
def mpu6050_read_gyro {σ : Type} (P : Platform σ) (p : Option gyro)
    (st : Driver σ) : Bool × Option gyro × Driver σ :=
  match st.s_dev, p with
  | none, _ => (false, p, st)
  | some _, none => (false, p, st)
  | some dev, some _ =>
    match P.mgos_i2c_read_reg_n dev.i2c dev.addr REG_GYRO_OUT
        REG_GYRO_OUT_REG_COUNT st.env with
    | (none, e) => (false, p, ⟨e, st.s_dev⟩)
    | (some data, e) =>
      (true,
        some ⟨swapped16 P.endian data 0, swapped16 P.endian data 1,
          swapped16 P.endian data 2, dev.g_scale⟩,
        ⟨e, st.s_dev⟩)

/-- The function `mpu6050_read_temperature`; `p` is the caller's `double *`.
The `int` returned by `mgos_i2c_read_reg_w` is stored into an `int16_t`
without being tested. -/
def mpu6050_read_temperature {σ : Type} (P : Platform σ) (p : Option ℚ)
    (st : Driver σ) : Bool × Option ℚ × Driver σ :=
  match st.s_dev, p with
  | none, _ => (false, p, st)
  | some _, none => (false, p, st)
  | some dev, some _ =>
    let r := P.mgos_i2c_read_reg_w dev.i2c dev.addr REG_TEMP_OUT st.env
    let t := toInt16 r.1
    (true, some ((t : ℚ) / 340 + 36.53), ⟨r.2, st.s_dev⟩)

/-! ## Sequences of driver calls -/

/-- One call of the driver's public interface, with its arguments. -/
inductive Call where
  | init (addr : Nat)
  | read_accel (p : Option accel)
  | read_gyro (p : Option gyro)
  | read_temperature (p : Option ℚ)

/-- Whether the call is `mpu6050_init`. -/
def Call.isInit : Call → Bool
  | Call.init _ => true
  | _ => false

/-- Perform one call: its `bool` result and the program state afterwards. -/
def call {σ : Type} (P : Platform σ) (c : Call) (st : Driver σ) : Bool × Driver σ :=
  match c with
  | Call.init addr => mpu6050_init P addr st
  | Call.read_accel p => ((mpu6050_read_accel P p st).1, (mpu6050_read_accel P p st).2.2)
  | Call.read_gyro p => ((mpu6050_read_gyro P p st).1, (mpu6050_read_gyro P p st).2.2)
  | Call.read_temperature p =>
    ((mpu6050_read_temperature P p st).1, (mpu6050_read_temperature P p st).2.2)

/-- Program state after a sequence of calls. -/
def run {σ : Type} (P : Platform σ) : List Call → Driver σ → Driver σ
  | [], st => st
  | c :: cs, st => run P cs (call P c st).2

/-- No `mpu6050_init` call of the sequence returns `true`. -/
def noSuccessfulInit {σ : Type} (P : Platform σ) : List Call → Driver σ → Bool
  | [], _ => true
  | c :: cs, st => !(c.isInit && (call P c st).1) && noSuccessfulInit P cs (call P c st).2

/-! ## Recording the bus transactions -/

/-- A bus transaction as requested by the driver (device address, register,
and the further arguments of the helper). -/
inductive Req where
  | read_reg_b (addr reg : Nat)
  | write_reg_b (addr reg value : Nat)
  | getbits_reg_b (addr reg bitoffset len : Nat)
  | read_reg_n (addr reg n : Nat)
  | read_reg_w (addr reg : Nat)
deriving DecidableEq, Repr

/-- What the transport answered. -/
inductive Resp where
  | int (v : Int)
  | bool (b : Bool)
  | bits (v : Option Nat)
  | block (v : Option (List Nat))
deriving DecidableEq, Repr

/-- The platform `P` with a recorder on the bus: every I2C helper call is
appended, with its answer, to a log kept next to the state of `P`. -/
def logged {σ : Type} (P : Platform σ) : Platform (σ × List (Req × Resp)) where
  endian := P.endian
  mgos_i2c_get_global := fun e => P.mgos_i2c_get_global e.1
  mgos_i2c_read_reg_b := fun c a r e =>
    ((P.mgos_i2c_read_reg_b c a r e.1).1,
      ((P.mgos_i2c_read_reg_b c a r e.1).2,
        e.2 ++ [(Req.read_reg_b a r, Resp.int (P.mgos_i2c_read_reg_b c a r e.1).1)]))
  mgos_i2c_write_reg_b := fun c a r v e =>
    ((P.mgos_i2c_write_reg_b c a r v e.1).1,
      ((P.mgos_i2c_write_reg_b c a r v e.1).2,
        e.2 ++ [(Req.write_reg_b a r v, Resp.bool (P.mgos_i2c_write_reg_b c a r v e.1).1)]))
  mgos_i2c_getbits_reg_b := fun c a r o l e =>
    ((P.mgos_i2c_getbits_reg_b c a r o l e.1).1,
      ((P.mgos_i2c_getbits_reg_b c a r o l e.1).2,
        e.2 ++ [(Req.getbits_reg_b a r o l,
          Resp.bits (P.mgos_i2c_getbits_reg_b c a r o l e.1).1)]))
  mgos_i2c_read_reg_n := fun c a r n e =>
    ((P.mgos_i2c_read_reg_n c a r n e.1).1,
      ((P.mgos_i2c_read_reg_n c a r n e.1).2,
        e.2 ++ [(Req.read_reg_n a r n, Resp.block (P.mgos_i2c_read_reg_n c a r n e.1).1)]))
  mgos_i2c_read_reg_w := fun c a r e =>
    ((P.mgos_i2c_read_reg_w c a r e.1).1,
      ((P.mgos_i2c_read_reg_w c a r e.1).2,
        e.2 ++ [(Req.read_reg_w a r, Resp.int (P.mgos_i2c_read_reg_w c a r e.1).1)]))
  calloc := fun e => ((P.calloc e.1).1, ((P.calloc e.1).2, e.2))

/-- The transactions `mpu6050_init(addr)` issues when nothing fails. -/
def initSequence (addr : Nat) : List Req :=
  [Req.read_reg_b addr 0x75, Req.write_reg_b addr 0x6B 0x01,
    Req.getbits_reg_b addr 0x1B 3 2, Req.getbits_reg_b addr 0x1C 3 2]

/-- Whether a recorded step of `mpu6050_init(addr)` let the initialisation go
on: the identity read answered `addr`, the write answered `true`, the
bit-field read delivered a value. -/
def stepOk (addr : Nat) : Req × Resp → Bool
  | (_, Resp.int v) => decide (v = (addr : Int))
  | (_, Resp.bool b) => b
  | (_, Resp.bits v) => v.isSome
  | (_, Resp.block v) => v.isSome

/-- Whether the recorded transaction is a register write. -/
def isWrite : Req × Resp → Bool
  | (Req.write_reg_b _ _ _, _) => true
  | _ => false

/-! ## Specification-side notions -/

/-- Two's-complement value of the 16-bit pattern `n`. -/
def signed16 (n : Nat) : Int := if n % 65536 < 32768 then (n % 65536 : Nat) else (n % 65536 : Nat) - 65536

/-! ## A scripted platform for concrete runs -/

/-- Answers of a scripted transport; the world state is the number of bus
transactions made so far, and block reads, word reads and allocations may
depend on it. -/
structure Script where
  bus : Option Nat
  who_am_i : Int
  write_ok : Bool
  gyro_fs : Option Nat
  accel_fs : Option Nat
  block : Nat → Option (List Nat)
  word : Nat → Int
  alloc : Nat → Bool

/-- The little-endian platform that answers as the script says. -/
def scripted (s : Script) : Platform Nat where
  endian := Endian.little
  mgos_i2c_get_global := fun _ => s.bus
  mgos_i2c_read_reg_b := fun _ _ _ n => (s.who_am_i, n + 1)
  mgos_i2c_write_reg_b := fun _ _ _ _ n => (s.write_ok, n + 1)
  mgos_i2c_getbits_reg_b := fun _ _ r _ _ n =>
    (if r = REG_GYRO_CONFIG then s.gyro_fs else s.accel_fs, n + 1)
  mgos_i2c_read_reg_n := fun _ _ _ _ n => (s.block n, n + 1)
  mgos_i2c_read_reg_w := fun _ _ _ n => (s.word n, n + 1)
  calloc := fun n => (s.alloc n, n)

/-- A device at `0x68` with gyro range code `1` and accel range code `2`;
block and word reads fail whenever the number of bus transactions made so far
is odd (the word read then answers `-1`). -/
def demoScript : Script where
  bus := some 1
  who_am_i := 0x68
  write_ok := true
  gyro_fs := some 1
  accel_fs := some 2
  block := fun n => if n % 2 = 0 then some [0x01, 0x02, 0xFF, 0xFE, 0x80, 0x00] else none
  word := fun n => if n % 2 = 0 then 340 else -1
  alloc := fun _ => true

/-- The handle `mpu6050_init 0x68` stores on the `demoScript` device. -/
def demoHandle : mpu6050 := ⟨1, 0x68, 500 / 32768, 8 / 32768⟩

/-- The `demoScript` device on a host where `calloc` succeeds only while fewer
than 8 bus transactions have been made: the first initialisation gets its
memory, a second one does not. -/
def lowMemoryScript : Script := { demoScript with alloc := fun n => decide (n < 8) }

/-- The `demoScript` device on a host where `calloc` always fails. -/
def noMemoryScript : Script := { demoScript with alloc := fun _ => false }

/-! ## Lemmas on 16-bit words -/

theorem shl8_and_mask (x : Nat) : (x <<< 8) &&& 0xFF00 = (x % 256) <<< 8 := by
  have e : (0xFF00 : Nat) = (2 ^ 8 - 1) <<< 8 := by decide
  have e2 : x % 256 = x &&& (2 ^ 8 - 1) := (Nat.and_pow_two_sub_one_eq_mod x 8).symm
  rw [e, e2]
  apply Nat.eq_of_testBit_eq
  intro i
  simp only [Nat.testBit_and, Nat.testBit_shiftLeft, Nat.testBit_two_pow_sub_one]
  cases decide (i ≥ 8) <;> simp

/-- On a word whose low byte is `lo` and high byte is `hi`, `be2le` yields the
word whose high byte is `lo` and low byte is `hi`. -/
theorem be2le_bytes (lo hi : Nat) (hlo : lo < 256) (hhi : hi < 256) :
    be2le (lo + 256 * hi) = lo * 256 + hi := by
  unfold be2le
  have h1 : ((lo + 256 * hi) >>> 8) &&& 0x00FF = hi := by
    rw [Nat.shiftRight_eq_div_pow]
    have h : (lo + 256 * hi) / 2 ^ 8 = hi := by omega
    rw [h]
    exact (Nat.and_pow_two_sub_one_eq_mod hi 8).trans (Nat.mod_eq_of_lt hhi)
  have h2 : (lo + 256 * hi) % 256 = lo := by omega
  rw [h1, shl8_and_mask, h2, Nat.shiftLeft_eq]
  have h3 := Nat.mul_add_lt_is_or (show hi < 2 ^ 8 by simpa using hhi) lo
  rw [Nat.mul_comm] at h3
  rw [← h3]
  omega

theorem toUInt16_toInt16 (n : Nat) (h : n < 65536) : toUInt16 (toInt16 (n : Int)) = n := by
  unfold toUInt16 toInt16
  omega

theorem toInt16_eq_signed16 (n : Nat) : toInt16 (n : Int) = signed16 n := by
  unfold toInt16 signed16
  split <;> omega

/-- On a little-endian host the stored component is the signed value of the
big-endian word formed by the two bytes. -/
theorem swapped16_little (b : List Nat) (i : Nat)
    (h0 : b.getD (2 * i) 0 < 256) (h1 : b.getD (2 * i + 1) 0 < 256) :
    swapped16 Endian.little b i = signed16 (b.getD (2 * i) 0 * 256 + b.getD (2 * i + 1) 0) := by
  unfold swapped16 word16
  simp only [Nat.mod_eq_of_lt h0, Nat.mod_eq_of_lt h1]
  rw [toUInt16_toInt16 _ (by omega), be2le_bytes _ _ h0 h1]
  exact toInt16_eq_signed16 _

/-! ## Initialisation -/

/-- C1: when the bus exists, the WHO_AM_I read answers `addr`, the PWR_MGMT_1
write succeeds, the two full-scale reads deliver codes `g` and `a` below 4 and
the allocation succeeds, `mpu6050_init addr` returns `true` and the stored
handle has `g_scale = [250,500,1000,2000][g] / 32768` and
`a_scale = [2,4,8,16][a] / 32768`. -/
theorem init_scale_factors {σ : Type} (P : Platform σ) (addr i2c g a : Nat)
    (st : Driver σ) (e1 e2 e3 e4 e5 : σ)
    (hbus : P.mgos_i2c_get_global st.env = some i2c)
    (hid : P.mgos_i2c_read_reg_b i2c addr REG_WHO_AM_I st.env = ((addr : Int), e1))
    (hpw : P.mgos_i2c_write_reg_b i2c addr REG_PWR_MGMT_1 0x01 e1 = (true, e2))
    (hgy : P.mgos_i2c_getbits_reg_b i2c addr REG_GYRO_CONFIG 3 2 e2 = (some g, e3))
    (hac : P.mgos_i2c_getbits_reg_b i2c addr REG_ACCEL_CONFIG 3 2 e3 = (some a, e4))
    (hal : P.calloc e4 = (true, e5))
    (hg : g < 4) (ha : a < 4) :
    mpu6050_init P addr st =
      (true, ⟨e5, some ⟨i2c, addr,
        ([250, 500, 1000, 2000] : List ℚ).getD g 0 / 32768,
        ([2, 4, 8, 16] : List ℚ).getD a 0 / 32768⟩⟩) := by
  unfold mpu6050_init
  simp only [hbus, hid, hpw, hgy, hac, hal]
  have hg256 : g % 256 = g := by omega
  have ha256 : a % 256 = a := by omega
  rw [hg256, ha256]
  interval_cases g <;> interval_cases a <;> simp

/-- The end-to-end scenario of C1: address `0x68`, gyro code 1, accel code 2
give `g_scale = 500/32768` and `a_scale = 8/32768`. -/
theorem init_scale_factors_witness :
    mpu6050_init (scripted demoScript) 0x68 ⟨0, none⟩ =
      (true, ⟨4, some ⟨1, 0x68,
        ([250, 500, 1000, 2000] : List ℚ).getD 1 0 / 32768,
        ([2, 4, 8, 16] : List ℚ).getD 2 0 / 32768⟩⟩) ∧
    ([250, 500, 1000, 2000] : List ℚ).getD 1 0 / 32768 = 500 / 32768 ∧
    ([2, 4, 8, 16] : List ℚ).getD 2 0 / 32768 = 8 / 32768 :=
  ⟨init_scale_factors (scripted demoScript) 0x68 1 1 2 ⟨0, none⟩ 1 2 3 4 4
      rfl rfl rfl rfl rfl rfl (by decide) (by decide),
    by simp, by simp⟩

/-- C2: whenever the value the WHO_AM_I read produces differs from `addr`
(the failure value `-1` included), `mpu6050_init addr` returns `false`. -/
theorem init_identity_mismatch {σ : Type} (P : Platform σ) (addr i2c : Nat)
    (st : Driver σ) (me : Int) (e1 : σ)
    (hbus : P.mgos_i2c_get_global st.env = some i2c)
    (hid : P.mgos_i2c_read_reg_b i2c addr REG_WHO_AM_I st.env = (me, e1))
    (hne : me ≠ (addr : Int)) :
    (mpu6050_init P addr st).1 = false := by
  unfold mpu6050_init
  have hne2 : ¬ ((addr : Int) = me) := fun h => hne h.symm
  simp [hbus, hid, hne2]

/-- Address `0x69` against a device whose identity register reads `0x68`. -/
theorem init_identity_mismatch_witness :
    (mpu6050_init (scripted demoScript) 0x69 ⟨0, none⟩).1 = false :=
  init_identity_mismatch (scripted demoScript) 0x69 1 ⟨0, none⟩ 0x68 1 rfl rfl (by decide)

/-! ## Reading samples -/

/-- C3: on a little-endian host, in an initialised state, when the block read
delivers the bytes `b0 … b5`, `mpu6050_read_accel` returns `true` with `x`,
`y`, `z` the two's-complement values of `b0*256+b1`, `b2*256+b3`, `b4*256+b5`,
and `mpu6050_read_gyro` does the same for its block. -/
theorem read_decodes_big_endian_words {σ : Type} (P : Platform σ) (dev : mpu6050)
    (env : σ) (b0 b1 b2 b3 b4 b5 : Nat)
    (hle : P.endian = Endian.little)
    (h0 : b0 < 256) (h1 : b1 < 256) (h2 : b2 < 256) (h3 : b3 < 256)
    (h4 : b4 < 256) (h5 : b5 < 256) :
    (∀ (pa : accel) (e : σ),
      P.mgos_i2c_read_reg_n dev.i2c dev.addr REG_ACCEL_OUT REG_ACCEL_OUT_REG_COUNT env
          = (some [b0, b1, b2, b3, b4, b5], e) →
        mpu6050_read_accel P (some pa) ⟨env, some dev⟩ =
          (true,
            some ⟨signed16 (b0 * 256 + b1), signed16 (b2 * 256 + b3),
              signed16 (b4 * 256 + b5), dev.a_scale⟩,
            ⟨e, some dev⟩)) ∧
    (∀ (pg : gyro) (e : σ),
      P.mgos_i2c_read_reg_n dev.i2c dev.addr REG_GYRO_OUT REG_GYRO_OUT_REG_COUNT env
          = (some [b0, b1, b2, b3, b4, b5], e) →
        mpu6050_read_gyro P (some pg) ⟨env, some dev⟩ =
          (true,
            some ⟨signed16 (b0 * 256 + b1), signed16 (b2 * 256 + b3),
              signed16 (b4 * 256 + b5), dev.g_scale⟩,
            ⟨e, some dev⟩)) := by
  have w0 := swapped16_little [b0, b1, b2, b3, b4, b5] 0 (by simpa using h0) (by simpa using h1)
  have w1 := swapped16_little [b0, b1, b2, b3, b4, b5] 1 (by simpa using h2) (by simpa using h3)
  have w2 := swapped16_little [b0, b1, b2, b3, b4, b5] 2 (by simpa using h4) (by simpa using h5)
  simp only [Nat.mul_zero, Nat.mul_one, Nat.zero_add, List.getD_cons_zero, List.getD_cons_succ]
    at w0 w1 w2
  constructor
  · intro pa e hr
    unfold mpu6050_read_accel
    simp only [hr, hle, w0, w1, w2]
  · intro pg e hr
    unfold mpu6050_read_gyro
    simp only [hr, hle, w0, w1, w2]

/-- The bytes `0x01, 0x02` decode to `0x0102 = 258`, not `0x0201 = 513`;
`0xFF, 0xFE` decode to `-2` and `0x80, 0x00` to `-32768`. -/
theorem read_decodes_big_endian_words_witness :
    mpu6050_read_accel (scripted demoScript) (some ⟨0, 0, 0, 0⟩) ⟨4, some demoHandle⟩ =
      (true,
        some ⟨signed16 (0x01 * 256 + 0x02), signed16 (0xFF * 256 + 0xFE),
          signed16 (0x80 * 256 + 0x00), demoHandle.a_scale⟩,
        ⟨5, some demoHandle⟩) ∧
    signed16 (0x01 * 256 + 0x02) = 258 ∧ signed16 (0x01 * 256 + 0x02) ≠ 513 ∧
    signed16 (0xFF * 256 + 0xFE) = -2 ∧ signed16 (0x80 * 256 + 0x00) = -32768 :=
  ⟨(read_decodes_big_endian_words (scripted demoScript) demoHandle 4
      0x01 0x02 0xFF 0xFE 0x80 0x00 rfl
      (by decide) (by decide) (by decide) (by decide) (by decide) (by decide)).1
      ⟨0, 0, 0, 0⟩ 5 rfl,
    by decide, by decide, by decide, by decide⟩

/-- C6: in an initialised state, when the 6-byte block read fails,
`mpu6050_read_accel` returns `false` and the caller's sample is what it was;
the same holds for `mpu6050_read_gyro`. -/
theorem read_block_failure_keeps_sample {σ : Type} (P : Platform σ) (dev : mpu6050)
    (env : σ) :
    (∀ (pa : Option accel),
      (P.mgos_i2c_read_reg_n dev.i2c dev.addr REG_ACCEL_OUT REG_ACCEL_OUT_REG_COUNT env).1
          = none →
        (mpu6050_read_accel P pa ⟨env, some dev⟩).1 = false ∧
        (mpu6050_read_accel P pa ⟨env, some dev⟩).2.1 = pa) ∧
    (∀ (pg : Option gyro),
      (P.mgos_i2c_read_reg_n dev.i2c dev.addr REG_GYRO_OUT REG_GYRO_OUT_REG_COUNT env).1
          = none →
        (mpu6050_read_gyro P pg ⟨env, some dev⟩).1 = false ∧
        (mpu6050_read_gyro P pg ⟨env, some dev⟩).2.1 = pg) := by
  constructor
  · intro pa hr
    cases pa with
    | none => simp [mpu6050_read_accel]
    | some v =>
      rcases h : P.mgos_i2c_read_reg_n dev.i2c dev.addr REG_ACCEL_OUT
        REG_ACCEL_OUT_REG_COUNT env with ⟨o, e⟩
      rw [h] at hr
      simp only at hr
      subst hr
      simp [mpu6050_read_accel, h]
  · intro pg hr
    cases pg with
    | none => simp [mpu6050_read_gyro]
    | some v =>
      rcases h : P.mgos_i2c_read_reg_n dev.i2c dev.addr REG_GYRO_OUT
        REG_GYRO_OUT_REG_COUNT env with ⟨o, e⟩
      rw [h] at hr
      simp only at hr
      subst hr
      simp [mpu6050_read_gyro, h]

/-- A failing block read (transaction 5 of the demo device) leaves the
caller's sample `(7, 8, 9, 1/2)` in place. -/
theorem read_block_failure_keeps_sample_witness :
    (mpu6050_read_accel (scripted demoScript) (some ⟨7, 8, 9, 1 / 2⟩)
        ⟨5, some demoHandle⟩).1 = false ∧
    (mpu6050_read_accel (scripted demoScript) (some ⟨7, 8, 9, 1 / 2⟩)
        ⟨5, some demoHandle⟩).2.1 = some ⟨7, 8, 9, 1 / 2⟩ :=
  (read_block_failure_keeps_sample (scripted demoScript) demoHandle 5).1
    (some ⟨7, 8, 9, 1 / 2⟩) rfl

/-- C8 (the code departs from it): on the demo device, whose word read at
transaction 5 fails with `-1`, `mpu6050_read_temperature` returns `true` and
stores `-1 / 340 + 36.53` as the temperature. -/
theorem read_temperature_ignores_failure :
    (scripted demoScript).mgos_i2c_read_reg_w 1 0x68 REG_TEMP_OUT 5 = (-1, 6) ∧
    mpu6050_read_temperature (scripted demoScript) (some 0) ⟨5, some demoHandle⟩ =
      (true, some (-1 / 340 + 36.53), ⟨6, some demoHandle⟩) := by
  refine ⟨rfl, ?_⟩
  have ht : toInt16 (-1) = -1 := by decide
  have hr : (scripted demoScript).mgos_i2c_read_reg_w demoHandle.i2c demoHandle.addr
      REG_TEMP_OUT 5 = (-1, 6) := rfl
  unfold mpu6050_read_temperature
  simp only [hr, ht]
  norm_num

/-! ## The handle slot -/

theorem read_accel_s_dev {σ : Type} (P : Platform σ) (p : Option accel) (st : Driver σ) :
    (mpu6050_read_accel P p st).2.2.s_dev = st.s_dev := by
  unfold mpu6050_read_accel
  split
  · rfl
  · rfl
  · split <;> rfl

theorem read_gyro_s_dev {σ : Type} (P : Platform σ) (p : Option gyro) (st : Driver σ) :
    (mpu6050_read_gyro P p st).2.2.s_dev = st.s_dev := by
  unfold mpu6050_read_gyro
  split
  · rfl
  · rfl
  · split <;> rfl

theorem read_temperature_s_dev {σ : Type} (P : Platform σ) (p : Option ℚ) (st : Driver σ) :
    (mpu6050_read_temperature P p st).2.2.s_dev = st.s_dev := by
  unfold mpu6050_read_temperature
  split <;> rfl

theorem read_accel_null {σ : Type} (P : Platform σ) (p : Option accel) (st : Driver σ)
    (h : st.s_dev = none) : (mpu6050_read_accel P p st).1 = false := by
  unfold mpu6050_read_accel
  simp [h]

theorem read_gyro_null {σ : Type} (P : Platform σ) (p : Option gyro) (st : Driver σ)
    (h : st.s_dev = none) : (mpu6050_read_gyro P p st).1 = false := by
  unfold mpu6050_read_gyro
  simp [h]

theorem read_temperature_null {σ : Type} (P : Platform σ) (p : Option ℚ) (st : Driver σ)
    (h : st.s_dev = none) : (mpu6050_read_temperature P p st).1 = false := by
  unfold mpu6050_read_temperature
  simp [h]

/-- A failing `mpu6050_init` leaves the slot as it was or empties it. -/
theorem init_false_slot {σ : Type} (P : Platform σ) (addr : Nat) (st : Driver σ)
    (h : (mpu6050_init P addr st).1 = false) :
    (mpu6050_init P addr st).2.s_dev = st.s_dev ∨ (mpu6050_init P addr st).2.s_dev = none := by
  revert h
  unfold mpu6050_init
  dsimp only
  split
  · simp
  · split_ifs
    · simp
    · simp
    · split
      · simp
      · split
        · simp
        · split <;> simp

/-- A successful `mpu6050_init` leaves a handle in the slot. -/
theorem init_true_slot {σ : Type} (P : Platform σ) (addr : Nat) (st : Driver σ)
    (h : (mpu6050_init P addr st).1 = true) :
    ∃ dev, (mpu6050_init P addr st).2.s_dev = some dev := by
  revert h
  unfold mpu6050_init
  dsimp only
  split
  · simp
  · split_ifs
    · simp
    · simp
    · split
      · simp
      · split
        · simp
        · split <;> simp

/-- A call that is not `mpu6050_init` leaves the slot as it was. -/
theorem call_read_s_dev {σ : Type} (P : Platform σ) (c : Call) (st : Driver σ)
    (h : c.isInit = false) : (call P c st).2.s_dev = st.s_dev := by
  cases c with
  | init addr => simp [Call.isInit] at h
  | read_accel p => exact read_accel_s_dev P p st
  | read_gyro p => exact read_gyro_s_dev P p st
  | read_temperature p => exact read_temperature_s_dev P p st

/-- Without a successful `mpu6050_init`, an empty slot stays empty. -/
theorem run_slot_empty {σ : Type} (P : Platform σ) (calls : List Call) :
    ∀ st : Driver σ, st.s_dev = none → noSuccessfulInit P calls st = true →
      (run P calls st).s_dev = none := by
  induction calls with
  | nil => intro st h _; exact h
  | cons c cs ih =>
    intro st h hn
    simp only [noSuccessfulInit, Bool.and_eq_true, Bool.not_eq_true', Bool.and_eq_false_imp] at hn
    refine ih _ ?_ hn.2
    cases hc : c.isInit with
    | false => rw [call_read_s_dev P c st hc]; exact h
    | true =>
      have hf := hn.1 hc
      cases c with
      | init addr =>
        rcases init_false_slot P addr st hf with h1 | h1
        · exact h1.trans h
        · exact h1
      | read_accel p => simp [Call.isInit] at hc
      | read_gyro p => simp [Call.isInit] at hc
      | read_temperature p => simp [Call.isInit] at hc

/-- Read calls alone leave the slot as it was. -/
theorem run_reads_slot {σ : Type} (P : Platform σ) (calls : List Call) :
    ∀ st : Driver σ, (∀ c ∈ calls, c.isInit = false) → (run P calls st).s_dev = st.s_dev := by
  induction calls with
  | nil => intro st _; rfl
  | cons c cs ih =>
    intro st h
    have h1 := ih (call P c st).2 (fun d hd => h d (List.mem_cons_of_mem c hd))
    exact h1.trans (call_read_s_dev P c st (h c (List.mem_cons_self c cs)))

/-- C5: in every state reached from the empty slot by a sequence of driver
calls none of whose `mpu6050_init` calls succeeds, `mpu6050_read_accel`,
`mpu6050_read_gyro` and `mpu6050_read_temperature` return `false`. -/
theorem read_before_init_fails {σ : Type} (P : Platform σ) (env : σ) (calls : List Call)
    (pa : Option accel) (pg : Option gyro) (pt : Option ℚ)
    (h : noSuccessfulInit P calls ⟨env, none⟩ = true) :
    (mpu6050_read_accel P pa (run P calls ⟨env, none⟩)).1 = false ∧
    (mpu6050_read_gyro P pg (run P calls ⟨env, none⟩)).1 = false ∧
    (mpu6050_read_temperature P pt (run P calls ⟨env, none⟩)).1 = false := by
  have hs := run_slot_empty P calls ⟨env, none⟩ rfl h
  exact ⟨read_accel_null P pa _ hs, read_gyro_null P pg _ hs, read_temperature_null P pt _ hs⟩

/-- Before any successful initialisation: a read, an initialisation at the
wrong address, an initialisation that runs out of memory, another read; the
three reads that follow all return `false`. -/
theorem read_before_init_fails_witness :
    (mpu6050_read_accel (scripted noMemoryScript) (some ⟨0, 0, 0, 0⟩)
      (run (scripted noMemoryScript)
        [Call.read_temperature (some 0), Call.init 0x69, Call.init 0x68, Call.read_gyro none]
        ⟨0, none⟩)).1 = false ∧
    (mpu6050_read_gyro (scripted noMemoryScript) (some ⟨0, 0, 0, 0⟩)
      (run (scripted noMemoryScript)
        [Call.read_temperature (some 0), Call.init 0x69, Call.init 0x68, Call.read_gyro none]
        ⟨0, none⟩)).1 = false ∧
    (mpu6050_read_temperature (scripted noMemoryScript) (some 0)
      (run (scripted noMemoryScript)
        [Call.read_temperature (some 0), Call.init 0x69, Call.init 0x68, Call.read_gyro none]
        ⟨0, none⟩)).1 = false :=
  read_before_init_fails (scripted noMemoryScript) 0
    [Call.read_temperature (some 0), Call.init 0x69, Call.init 0x68, Call.read_gyro none]
    (some ⟨0, 0, 0, 0⟩) (some ⟨0, 0, 0, 0⟩) (some 0) (by decide)

/-- If `calloc` never fails, a failing `mpu6050_init` leaves the slot as it
was: every failure before the allocation step keeps the handle. -/
theorem init_false_slot_of_alloc {σ : Type} (P : Platform σ) (addr : Nat) (st : Driver σ)
    (hal : ∀ e, (P.calloc e).1 = true)
    (h : (mpu6050_init P addr st).1 = false) :
    (mpu6050_init P addr st).2.s_dev = st.s_dev := by
  revert h
  unfold mpu6050_init
  dsimp only
  split
  · simp
  · split_ifs
    · simp
    · simp
    · split
      · simp
      · split
        · simp
        · split
          · rename_i e4 _ _ e5 h5
            have h6 := hal e4
            rw [h5] at h6
            simp at h6
          · simp

/-- C7 (the code departs from it): on a host whose second allocation fails, the
first `mpu6050_init 0x68` installs `demoHandle`; the second one passes every
bus step, fails at `calloc`, returns `false` and leaves the slot empty. -/
theorem init_alloc_failure_clears_slot :
    mpu6050_init (scripted lowMemoryScript) 0x68 ⟨0, none⟩ = (true, ⟨4, some demoHandle⟩) ∧
    mpu6050_init (scripted lowMemoryScript) 0x68 ⟨4, some demoHandle⟩ = (false, ⟨8, none⟩) := by
  constructor
  · simp [mpu6050_init, scripted, lowMemoryScript, demoScript, demoHandle, REG_GYRO_CONFIG,
      REG_ACCEL_CONFIG]
  · simp [mpu6050_init, scripted, lowMemoryScript, demoScript, REG_GYRO_CONFIG,
      REG_ACCEL_CONFIG]

/-! ## Scale factors after initialisation -/

theorem read_accel_scale {σ : Type} (P : Platform σ) (p : Option accel) (st : Driver σ)
    (dev : mpu6050) (h : st.s_dev = some dev)
    (hok : (mpu6050_read_accel P p st).1 = true) :
    ∃ s, (mpu6050_read_accel P p st).2.1 = some s ∧ s.scale = dev.a_scale := by
  revert hok
  unfold mpu6050_read_accel
  cases p with
  | none => simp [h]
  | some v =>
    simp only [h]
    split <;> simp

theorem read_gyro_scale {σ : Type} (P : Platform σ) (p : Option gyro) (st : Driver σ)
    (dev : mpu6050) (h : st.s_dev = some dev)
    (hok : (mpu6050_read_gyro P p st).1 = true) :
    ∃ s, (mpu6050_read_gyro P p st).2.1 = some s ∧ s.scale = dev.g_scale := by
  revert hok
  unfold mpu6050_read_gyro
  cases p with
  | none => simp [h]
  | some v =>
    simp only [h]
    split <;> simp

/-- C9: after a successful `mpu6050_init`, any sequence of read calls, whatever
the transport answers, leaves the stored handle as initialisation made it;
every successful `mpu6050_read_accel` afterwards returns that handle's
`a_scale` and every successful `mpu6050_read_gyro` its `g_scale`. -/
theorem reads_keep_handle {σ : Type} (P : Platform σ) (addr : Nat) (st0 st1 : Driver σ)
    (hinit : mpu6050_init P addr st0 = (true, st1)) :
    ∃ dev, st1.s_dev = some dev ∧
      ∀ calls : List Call, (∀ c ∈ calls, c.isInit = false) →
        (run P calls st1).s_dev = some dev ∧
        (∀ p, (mpu6050_read_accel P p (run P calls st1)).1 = true →
          ∃ s, (mpu6050_read_accel P p (run P calls st1)).2.1 = some s ∧
            s.scale = dev.a_scale) ∧
        (∀ p, (mpu6050_read_gyro P p (run P calls st1)).1 = true →
          ∃ s, (mpu6050_read_gyro P p (run P calls st1)).2.1 = some s ∧
            s.scale = dev.g_scale) := by
  have h1 : (mpu6050_init P addr st0).1 = true := by rw [hinit]
  obtain ⟨dev, hdev⟩ := init_true_slot P addr st0 h1
  rw [hinit] at hdev
  simp only at hdev
  refine ⟨dev, hdev, ?_⟩
  intro calls hc
  have hs : (run P calls st1).s_dev = some dev := (run_reads_slot P calls st1 hc).trans hdev
  exact ⟨hs, fun p hok => read_accel_scale P p _ dev hs hok,
    fun p hok => read_gyro_scale P p _ dev hs hok⟩

/-- The demo device after `mpu6050_init 0x68`: the handle is `demoHandle`
and stays so under every sequence of reads, failing ones included. -/
theorem reads_keep_handle_witness :
    ∃ dev, (⟨4, some demoHandle⟩ : Driver Nat).s_dev = some dev ∧
      ∀ calls : List Call, (∀ c ∈ calls, c.isInit = false) →
        (run (scripted demoScript) calls ⟨4, some demoHandle⟩).s_dev = some dev ∧
        (∀ p, (mpu6050_read_accel (scripted demoScript) p
            (run (scripted demoScript) calls ⟨4, some demoHandle⟩)).1 = true →
          ∃ s, (mpu6050_read_accel (scripted demoScript) p
              (run (scripted demoScript) calls ⟨4, some demoHandle⟩)).2.1 = some s ∧
            s.scale = dev.a_scale) ∧
        (∀ p, (mpu6050_read_gyro (scripted demoScript) p
            (run (scripted demoScript) calls ⟨4, some demoHandle⟩)).1 = true →
          ∃ s, (mpu6050_read_gyro (scripted demoScript) p
              (run (scripted demoScript) calls ⟨4, some demoHandle⟩)).2.1 = some s ∧
            s.scale = dev.g_scale) :=
  reads_keep_handle (scripted demoScript) 0x68 ⟨0, none⟩ ⟨4, some demoHandle⟩
    (by simp [mpu6050_init, scripted, demoScript, demoHandle, REG_GYRO_CONFIG,
      REG_ACCEL_CONFIG])

/-! ## Bus transactions of the initialisation -/

/-- The recorder does not change what `mpu6050_init` returns or stores. -/
theorem init_logged_result {σ : Type} (P : Platform σ) (addr : Nat) (env : σ)
    (l : List (Req × Resp)) (dev : Option mpu6050) :
    (mpu6050_init (logged P) addr ⟨(env, l), dev⟩).1 = (mpu6050_init P addr ⟨env, dev⟩).1 ∧
    (mpu6050_init (logged P) addr ⟨(env, l), dev⟩).2.s_dev
      = (mpu6050_init P addr ⟨env, dev⟩).2.s_dev ∧
    (mpu6050_init (logged P) addr ⟨(env, l), dev⟩).2.env.1
      = (mpu6050_init P addr ⟨env, dev⟩).2.env := by
  unfold mpu6050_init
  dsimp only [logged]
  cases P.mgos_i2c_get_global env with
  | none => simp
  | some i2c =>
    dsimp only
    split_ifs
    · simp
    · simp
    · rcases P.mgos_i2c_getbits_reg_b i2c addr REG_GYRO_CONFIG 3 2
        (P.mgos_i2c_write_reg_b i2c addr REG_PWR_MGMT_1 1
          (P.mgos_i2c_read_reg_b i2c addr REG_WHO_AM_I env).2).2 with ⟨_ | gv, e3⟩
      · simp
      · dsimp only
        rcases P.mgos_i2c_getbits_reg_b i2c addr REG_ACCEL_CONFIG 3 2 e3 with ⟨_ | av, e4⟩
        · simp
        · dsimp only
          rcases P.calloc e4 with ⟨_ | _, e5⟩ <;> simp

/-- C10: the bus transactions one `mpu6050_init addr` call issues are a prefix
of [read WHO_AM_I, write 0x01 to PWR_MGMT_1, read bits 4..3 of GYRO_CONFIG,
read bits 4..3 of ACCEL_CONFIG]; none is repeated; every one but the last
succeeded; a prefix shorter than four ends in a failed step; it is empty only
without a bus; and after an identity read different from `addr` no write is
issued. -/
theorem init_transactions {σ : Type} (P : Platform σ) (addr : Nat) (env : σ)
    (dev : Option mpu6050) :
    ((mpu6050_init (logged P) addr ⟨(env, []), dev⟩).2.env.2.map Prod.fst
        <+: initSequence addr) ∧
    ((mpu6050_init (logged P) addr ⟨(env, []), dev⟩).2.env.2.map Prod.fst).Nodup ∧
    (∀ t ∈ (mpu6050_init (logged P) addr ⟨(env, []), dev⟩).2.env.2.dropLast,
      stepOk addr t = true) ∧
    ((mpu6050_init (logged P) addr ⟨(env, []), dev⟩).2.env.2.length < 4 →
      ∀ t ∈ (mpu6050_init (logged P) addr ⟨(env, []), dev⟩).2.env.2.getLast?,
        stepOk addr t = false) ∧
    ((mpu6050_init (logged P) addr ⟨(env, []), dev⟩).2.env.2 = [] ↔
      P.mgos_i2c_get_global env = none) ∧
    (∀ i2c, P.mgos_i2c_get_global env = some i2c →
      (P.mgos_i2c_read_reg_b i2c addr REG_WHO_AM_I env).1 ≠ (addr : Int) →
      ∀ t ∈ (mpu6050_init (logged P) addr ⟨(env, []), dev⟩).2.env.2, isWrite t = false) := by
  unfold mpu6050_init
  dsimp only [logged, REG_WHO_AM_I, REG_PWR_MGMT_1, REG_GYRO_CONFIG, REG_ACCEL_CONFIG]
  split
  · rename_i hb
    simp [hb, initSequence]
  · rename_i i2c hb
    split_ifs with h1 h2
    · simp [hb, initSequence, stepOk, isWrite, Ne.symm h1]
    · simp at h1 h2
      simp [hb, initSequence, stepOk, isWrite, h1, h2]
    · simp at h1 h2
      split
      · rename_i e3 h3
        simp at h3
        obtain ⟨h3, rfl⟩ := h3
        simp [hb, initSequence, stepOk, isWrite, h1, h2, h3]
      · rename_i gv e3 h3
        simp at h3
        obtain ⟨h3, rfl⟩ := h3
        split
        · rename_i e4 h4
          simp at h4
          obtain ⟨h4, rfl⟩ := h4
          simp [hb, initSequence, stepOk, isWrite, h1, h2, h3, h4]
        · rename_i av e4 h4
          simp at h4
          obtain ⟨h4, rfl⟩ := h4
          split
          · rename_i e5 h5
            simp at h5
            obtain ⟨h5, rfl⟩ := h5
            simp [hb, initSequence, stepOk, isWrite, h1, h2, h3, h4]
          · rename_i e5 h5
            simp at h5
            obtain ⟨h5, rfl⟩ := h5
            simp [hb, initSequence, stepOk, isWrite, h1, h2, h3, h4]

/-- At the wrong address `0x69` the demo device sees exactly one transaction,
the identity read; at `0x68` it sees all four, in order. -/
theorem init_transactions_witness :
    ((mpu6050_init (logged (scripted demoScript)) 0x69 ⟨(0, []), none⟩).2.env.2.map Prod.fst
        <+: initSequence 0x69) ∧
    (mpu6050_init (logged (scripted demoScript)) 0x69 ⟨(0, []), none⟩).2.env.2
      = [(Req.read_reg_b 0x69 0x75, Resp.int 0x68)] ∧
    (mpu6050_init (logged (scripted demoScript)) 0x68 ⟨(0, []), none⟩).2.env.2
      = [(Req.read_reg_b 0x68 0x75, Resp.int 0x68), (Req.write_reg_b 0x68 0x6B 0x01, Resp.bool true),
          (Req.getbits_reg_b 0x68 0x1B 3 2, Resp.bits (some 1)),
          (Req.getbits_reg_b 0x68 0x1C 3 2, Resp.bits (some 2))] :=
  ⟨(init_transactions (scripted demoScript) 0x69 0 none).1,
    by simp [mpu6050_init, logged, scripted, demoScript, REG_WHO_AM_I],
    by simp [mpu6050_init, logged, scripted, demoScript, REG_WHO_AM_I, REG_PWR_MGMT_1,
      REG_GYRO_CONFIG, REG_ACCEL_CONFIG]⟩

end MPU6050
